import Mathlib

/-!
Verification of the BrosephTech video-to-description pipeline (`main.py`).

Python strings are modelled as `List Char` (a Python `str` is a sequence of
Unicode code points; `len` is `List.length`, slicing `s[:n]` is `List.take n`).
The two external services (ElevenLabs speech-to-text, Anthropic text
generation) are modelled as oracles supplied in the environment; the local
filesystem is an association list from paths to contents.
-/

namespace VideoPrompt

/-- Python `p.rfind(c)`: the highest index at which character `c` occurs in
`p`, or `-1` when `c` does not occur. -/
def rfindIdx (c : Char) : List Char → Int
  | [] => -1
  | x :: xs =>
    if 0 ≤ rfindIdx c xs then rfindIdx c xs + 1
    else if x = c then 0 else -1

/-- Python `os.path.splitext` for POSIX paths (`genericpath._splitext` with
`sep = '/'`, no `altsep`, `extsep = '.'`): find the last `/` and the last `.`;
if the last `.` comes after the last `/` and the characters strictly between
them are not all dots, split at the last `.`; otherwise the extension is
empty. -/
def splitext (p : List Char) : List Char × List Char :=
  let sepIndex := rfindIdx '/' p
  let dotIndex := rfindIdx '.' p
  if sepIndex < dotIndex then
    if ((p.take dotIndex.toNat).drop (sepIndex + 1).toNat).any (fun ch => ch != '.') then
      (p.take dotIndex.toNat, p.drop dotIndex.toNat)
    else (p, [])
  else (p, [])

/-- The output path derived by `save_output`:
`os.path.splitext(video_path)[0] + "_description.txt"`. -/
def save_output_path (video_path : List Char) : List Char :=
  (splitext video_path).1 ++ "_description.txt".toList

/-- `trim_srt` (main.py, lines 261-266): if the SRT content is longer than
`max_chars`, return its first `max_chars` characters (`srt_content[:max_chars]`),
otherwise return it unchanged.  (The truncation warning print is elided.) -/
def trim_srt (srt_content : List Char) (max_chars : Nat) : List Char :=
  if srt_content.length > max_chars then srt_content.take max_chars
  else srt_content

/-- The default value of `trim_srt`'s `max_chars` parameter in the source. -/
def trim_srt_default_max : Nat := 80000

/-- An HTTP response from the speech-to-text service: status code and body
text (`response.status_code`, `response.text`). -/
structure Response where
  status_code : Nat
  text : List Char
deriving DecidableEq

/-- The data carried by the exception raised on a failed transcription
(`Exception(f"ElevenLabs transcription failed: {status_code} — {text}")`):
the response's status code and body. -/
structure TranscriptionError where
  status_code : Nat
  body : List Char
deriving DecidableEq

/-- `transcribe_video_to_srt` (main.py, lines 226-256), with the HTTP call
replaced by the oracle response `resp`: raise when `response.status_code != 200`,
otherwise return `response.text` verbatim. -/
def transcribe_video_to_srt (resp : Response) : Except TranscriptionError (List Char) :=
  if resp.status_code ≠ 200 then
    Except.error ⟨resp.status_code, resp.text⟩
  else
    Except.ok resp.text

/-- `generate_description` (main.py, lines 271-299), with the Anthropic call
replaced by the oracle `serviceText` (the first text segment of the model's
reply, `message.content[0].text`): the reply text is returned verbatim. -/
def generate_description (srt_content : List Char) (serviceText : List Char) : List Char :=
  serviceText

/-- The local filesystem: an association list from paths to file contents.
A write conses a fresh binding; a read takes the most recent binding. -/
abbrev FS := List (List Char × List Char)

/-- Writing a file: `open(path, "w").write(contents)`. -/
def fsWrite (fs : FS) (path contents : List Char) : FS :=
  (path, contents) :: fs

/-- Reading a file's contents, `none` when the path does not exist. -/
def fsRead (fs : FS) (path : List Char) : Option (List Char) :=
  (fs.find? (fun kv => kv.1 == path)).map Prod.snd

/-- `os.path.exists(path)`. -/
def pathExists (fs : FS) (path : List Char) : Bool :=
  (fsRead fs path).isSome

/-- `save_output` (main.py, lines 304-316): derive the output path by
stripping the extension and appending `"_description.txt"`, write the
description there (UTF-8 text), and return the output path. -/
def save_output (fs : FS) (description video_path : List Char) : FS × List Char :=
  let output_path := save_output_path video_path
  (fsWrite fs output_path description, output_path)

/-- The environment a single run executes in: the filesystem and the two
external services' responses (each service is called at most once per run). -/
structure Env where
  fs : FS
  transcribeResp : Response
  generateText : List Char
deriving DecidableEq

/-- How a run of the pipeline driver terminates. -/
inductive RunResult where
  /-- `sys.exit(1)` after printing the given message (missing input file). -/
  | exitedNotFound (code : Nat) (msg : List Char)
  /-- The transcription exception propagates out of `run` uncaught. -/
  | raisedTranscription (e : TranscriptionError)
  /-- Normal completion: the output path and the description written there. -/
  | completed (output_path description : List Char)
deriving DecidableEq

/-- A run's observable outcome: how it ended, which inputs each external
service received (in order), and the final filesystem. -/
structure RunOutcome where
  result : RunResult
  transcribeCalls : List (List Char)
  generateCalls : List (List Char)
  fs : FS
deriving DecidableEq

/-- `run` (main.py, lines 321-348): validate that the input exists (else
print an error and `sys.exit(1)`), transcribe, trim with the default budget,
generate the description, save it.  Progress prints are elided; the
`transcribeCalls` / `generateCalls` fields record the argument of each
service call made. -/
def run (env : Env) (video_path : List Char) : RunOutcome :=
  if pathExists env.fs video_path then
    match transcribe_video_to_srt env.transcribeResp with
    | Except.error e => ⟨RunResult.raisedTranscription e, [video_path], [], env.fs⟩
    | Except.ok srt_content =>
      let srt_trimmed := trim_srt srt_content trim_srt_default_max
      let description := generate_description srt_trimmed env.generateText
      let saved := save_output env.fs description video_path
      ⟨RunResult.completed saved.2 description, [video_path], [srt_trimmed], saved.1⟩
  else
    ⟨RunResult.exitedNotFound 1 ("Error: File not found — ".toList ++ video_path),
      [], [], env.fs⟩

/-- Python truthiness of `os.getenv(...)`: `not key` holds when the variable
is absent (`None`) or set to the empty string. -/
def isFalsyKey : Option (List Char) → Bool
  | none => true
  | some s => s.isEmpty

/-- The diagnostic printed when a credential is missing (main.py, line 25). -/
def configErrMsg : List Char :=
  "Error: API keys not found. Make sure your .env file exists and has both keys.".toList

/-- Outcome of a whole process invocation. -/
inductive ProgramOutcome where
  /-- `sys.exit(1)` at startup after printing `msg` (missing credential). -/
  | configExit (code : Nat) (msg : List Char)
  /-- Startup checks passed and the pipeline ran. -/
  | ran (o : RunOutcome)
deriving DecidableEq

/-- The whole program (main.py, lines 21-26 then 351-358): load the two keys,
exit with status 1 and a diagnostic if either is falsy, otherwise run the
pipeline on the chosen video path. -/
def main_program (elevenlabs_key anthropic_key : Option (List Char))
    (env : Env) (video_path : List Char) : ProgramOutcome :=
  if isFalsyKey elevenlabs_key || isFalsyKey anthropic_key then
    ProgramOutcome.configExit 1 configErrMsg
  else
    ProgramOutcome.ran (run env video_path)

/-! ### Helper lemmas -/

/-- Trimming never produces more than `max_chars` characters. -/
theorem trim_srt_length_le (t : List Char) (m : Nat) : (trim_srt t m).length ≤ m := by
  by_cases h : t.length > m
  · simp [trim_srt, h]
  · simp only [trim_srt, if_neg h]
    omega

/-- Reading back a freshly written file yields the written contents. -/
theorem fsRead_fsWrite (fs : FS) (p v : List Char) :
    fsRead (fsWrite fs p v) p = some v := by
  simp [fsRead, fsWrite, List.find?]

/-- `rfind` of an absent character is `-1`. -/
theorem rfindIdx_not_mem (c : Char) (xs : List Char) (h : c ∉ xs) :
    rfindIdx c xs = -1 := by
  induction xs with
  | nil => rfl
  | cons x xs ih =>
    have hx : x ≠ c := fun hxc => h (hxc ▸ List.mem_cons_self x xs)
    have hxs : c ∉ xs := fun hm => h (List.mem_cons_of_mem x hm)
    simp [rfindIdx, ih hxs, hx]

/-- `rfind` of a character heading the list and absent from the tail is 0. -/
theorem rfindIdx_cons_self (c : Char) (xs : List Char) (h : c ∉ xs) :
    rfindIdx c (c :: xs) = 0 := by
  simp [rfindIdx, rfindIdx_not_mem c xs h]

/-- One-step unfolding of `rfindIdx` on a cons cell. -/
theorem rfindIdx_cons (c z : Char) (l : List Char) :
    rfindIdx c (z :: l) =
      if 0 ≤ rfindIdx c l then rfindIdx c l + 1
      else if z = c then 0 else -1 := rfl

/-- `rfind` answers either `-1` or a genuine (non-negative) index. -/
theorem rfindIdx_neg_one_or_nonneg (c : Char) (xs : List Char) :
    rfindIdx c xs = -1 ∨ 0 ≤ rfindIdx c xs := by
  induction xs with
  | nil => exact Or.inl rfl
  | cons x xs ih =>
    rw [rfindIdx_cons]
    by_cases h : 0 ≤ rfindIdx c xs
    · rw [if_pos h]
      right
      omega
    · rw [if_neg h]
      by_cases hx : x = c
      · rw [if_pos hx]
        right
        omega
      · rw [if_neg hx]
        exact Or.inl rfl

/-- `rfind` always answers an index below the length. -/
theorem rfindIdx_lt_length (c : Char) (xs : List Char) :
    rfindIdx c xs < (xs.length : Int) := by
  induction xs with
  | nil => simp [rfindIdx]
  | cons x xs ih =>
    rw [rfindIdx_cons, List.length_cons]
    by_cases h : 0 ≤ rfindIdx c xs
    · rw [if_pos h]
      push_cast
      omega
    · rw [if_neg h]
      by_cases hx : x = c
      · rw [if_pos hx]
        push_cast
        omega
      · rw [if_neg hx]
        push_cast
        omega

/-- How `rfind` distributes over append: if the character occurs in the
second part, the answer lands there (shifted); otherwise it is the answer on
the first part. -/
theorem rfindIdx_append (c : Char) (xs ys : List Char) :
    rfindIdx c (xs ++ ys) =
      if 0 ≤ rfindIdx c ys then (xs.length : Int) + rfindIdx c ys
      else rfindIdx c xs := by
  induction xs with
  | nil =>
    rcases rfindIdx_neg_one_or_nonneg c ys with h | h
    · rw [List.nil_append, if_neg (by omega), h]
      rfl
    · rw [List.nil_append, if_pos h]
      simp
  | cons x xs ih =>
    rw [List.cons_append, rfindIdx_cons, ih, rfindIdx_cons, List.length_cons]
    rcases rfindIdx_neg_one_or_nonneg c ys with hy | hy <;>
      rcases rfindIdx_neg_one_or_nonneg c xs with hx | hx <;>
      split_ifs <;> push_cast <;> omega

/-! ### Claims -/

/-- C2: for every transcript `t` and character budget `m`, if `t` fits the
budget then `trim_srt t m` returns `t` unchanged, and if `t` exceeds the
budget then `trim_srt t m` returns exactly the first `m` characters of `t`,
a result of length exactly `m`. -/
theorem trim_srt_identity_and_truncate (t : List Char) (m : Nat) :
    (t.length ≤ m → trim_srt t m = t) ∧
    (t.length > m → trim_srt t m = t.take m ∧ (trim_srt t m).length = m) := by
  constructor
  · intro h
    simp [trim_srt, Nat.not_lt.mpr h]
  · intro h
    have heq : trim_srt t m = t.take m := by simp [trim_srt, h]
    refine ⟨heq, ?_⟩
    rw [heq, List.length_take]
    omega

/-- Witness for C2 at concrete inputs: a short transcript is left unchanged,
an overlong one is cut to the first two characters. -/
theorem trim_srt_identity_and_truncate_witness :
    trim_srt ['a', 'b'] 5 = ['a', 'b'] ∧
    trim_srt ['a', 'b', 'c'] 2 = ['a', 'b'] ∧
    (trim_srt ['a', 'b', 'c'] 2).length = 2 :=
  ⟨(trim_srt_identity_and_truncate ['a', 'b'] 5).1 (by decide),
   ((trim_srt_identity_and_truncate ['a', 'b', 'c'] 2).2 (by decide)).1,
   ((trim_srt_identity_and_truncate ['a', 'b', 'c'] 2).2 (by decide)).2⟩

/-- C8: trimming is idempotent — trimming an already-trimmed transcript with
the same budget returns it unchanged. -/
theorem trim_srt_idempotent (t : List Char) (m : Nat) :
    trim_srt (trim_srt t m) m = trim_srt t m := by
  by_cases h : t.length > m
  · have heq : trim_srt t m = t.take m := by simp [trim_srt, h]
    rw [heq]
    have hle : (t.take m).length ≤ m := by
      rw [List.length_take]; omega
    simp [trim_srt, Nat.not_lt.mpr hle]
  · have heq : trim_srt t m = t := by simp [trim_srt, h]
    rw [heq]
    simp [trim_srt, h]

/-- C4: the transcriber returns the response body verbatim on status 200 (the
status the source treats as success), and on any other status fails with a
`TranscriptionError` carrying the status code and the response body. -/
theorem transcribe_status_contract (resp : Response) :
    (resp.status_code = 200 →
      transcribe_video_to_srt resp = Except.ok resp.text) ∧
    (resp.status_code ≠ 200 →
      transcribe_video_to_srt resp =
        Except.error ⟨resp.status_code, resp.text⟩) := by
  constructor <;> intro h <;> simp [transcribe_video_to_srt, h]

/-- Witness for C4 at concrete responses: status 200 returns the body, status
404 raises with the code and body. -/
theorem transcribe_status_contract_witness :
    transcribe_video_to_srt ⟨200, "body".toList⟩ = Except.ok "body".toList ∧
    transcribe_video_to_srt ⟨404, "err".toList⟩ =
      Except.error ⟨404, "err".toList⟩ :=
  ⟨(transcribe_status_contract ⟨200, "body".toList⟩).1 rfl,
   (transcribe_status_contract ⟨404, "err".toList⟩).2 (by decide)⟩

/-- C1: end-to-end pipeline correctness with the services stubbed.  If the
input video exists and the transcription service answers with status 200
(returning SRT text `env.transcribeResp.text`) and the generation service
returns `env.generateText`, then `run` completes, the file at the derived
output path holds exactly the generated text with no additional framing, and
`save_output` returns that path. -/
theorem run_end_to_end_writes_description (env : Env) (vp : List Char)
    (hex : pathExists env.fs vp = true)
    (hok : env.transcribeResp.status_code = 200) :
    (run env vp).result =
      RunResult.completed (save_output_path vp) env.generateText ∧
    fsRead (run env vp).fs (save_output_path vp) = some env.generateText ∧
    (save_output env.fs env.generateText vp).2 = save_output_path vp := by
  have htr : transcribe_video_to_srt env.transcribeResp =
      Except.ok env.transcribeResp.text := by
    simp [transcribe_video_to_srt, hok]
  unfold run
  rw [if_pos hex, htr]
  refine ⟨rfl, ?_, rfl⟩
  exact fsRead_fsWrite env.fs (save_output_path vp) env.generateText

/-- Witness for C1: with the fake transcriber of the spec and a fake generator
returning `"DESC"`, running on an existing dummy video writes `"DESC"` at the
derived output path. -/
theorem run_end_to_end_writes_description_witness :
    (run ⟨[("/a/b/clip.mp4".toList, [])],
        ⟨200, "1\n00:00:00,000 --> 00:00:05,000\nHello\n".toList⟩,
        "DESC".toList⟩ "/a/b/clip.mp4".toList).result =
      RunResult.completed (save_output_path "/a/b/clip.mp4".toList) "DESC".toList ∧
    fsRead (run ⟨[("/a/b/clip.mp4".toList, [])],
        ⟨200, "1\n00:00:00,000 --> 00:00:05,000\nHello\n".toList⟩,
        "DESC".toList⟩ "/a/b/clip.mp4".toList).fs
      (save_output_path "/a/b/clip.mp4".toList) = some "DESC".toList ∧
    (save_output [("/a/b/clip.mp4".toList, [])] "DESC".toList
      "/a/b/clip.mp4".toList).2 = save_output_path "/a/b/clip.mp4".toList :=
  run_end_to_end_writes_description
    ⟨[("/a/b/clip.mp4".toList, [])],
      ⟨200, "1\n00:00:00,000 --> 00:00:05,000\nHello\n".toList⟩,
      "DESC".toList⟩ "/a/b/clip.mp4".toList (by decide) (by decide)

/-- C5: when the transcription service answers with a non-200 status, the run
raises the transcription error and the generation service receives zero
calls. -/
theorem transcription_failure_precedes_generation (env : Env) (vp : List Char)
    (h : env.transcribeResp.status_code ≠ 200) :
    (run env vp).generateCalls = [] ∧
    (pathExists env.fs vp = true →
      (run env vp).result = RunResult.raisedTranscription
        ⟨env.transcribeResp.status_code, env.transcribeResp.text⟩) := by
  have htr : transcribe_video_to_srt env.transcribeResp =
      Except.error ⟨env.transcribeResp.status_code, env.transcribeResp.text⟩ := by
    simp [transcribe_video_to_srt, h]
  unfold run
  by_cases hex : pathExists env.fs vp = true
  · rw [if_pos hex, htr]
    exact ⟨rfl, fun _ => rfl⟩
  · rw [if_neg hex]
    exact ⟨rfl, fun hc => absurd hc hex⟩

/-- Witness for C5: at a failing response (status 404) on an existing file,
the generator gets no call and the run ends with the raised error. -/
theorem transcription_failure_precedes_generation_witness :
    (run ⟨[("v.mp4".toList, [])], ⟨404, "boom".toList⟩, "DESC".toList⟩
        "v.mp4".toList).generateCalls = [] ∧
    (pathExists [("v.mp4".toList, [])] "v.mp4".toList = true →
      (run ⟨[("v.mp4".toList, [])], ⟨404, "boom".toList⟩, "DESC".toList⟩
          "v.mp4".toList).result =
        RunResult.raisedTranscription ⟨404, "boom".toList⟩) :=
  transcription_failure_precedes_generation
    ⟨[("v.mp4".toList, [])], ⟨404, "boom".toList⟩, "DESC".toList⟩
    "v.mp4".toList (by decide)

/-- C7: when the input video path does not exist, `run` exits with status 1
(printing the file-not-found message) and neither external service receives
any call. -/
theorem missing_input_exits_before_network (env : Env) (vp : List Char)
    (h : pathExists env.fs vp = false) :
    (run env vp).result =
      RunResult.exitedNotFound 1 ("Error: File not found — ".toList ++ vp) ∧
    (run env vp).transcribeCalls = [] ∧
    (run env vp).generateCalls = [] := by
  unfold run
  rw [if_neg (by simp [h])]
  exact ⟨rfl, rfl, rfl⟩

/-- Witness for C7: on an empty filesystem the run exits with status 1 and
makes no service call. -/
theorem missing_input_exits_before_network_witness :
    (run ⟨[], ⟨200, []⟩, []⟩ "v.mp4".toList).result =
      RunResult.exitedNotFound 1
        ("Error: File not found — ".toList ++ "v.mp4".toList) ∧
    (run ⟨[], ⟨200, []⟩, []⟩ "v.mp4".toList).transcribeCalls = [] ∧
    (run ⟨[], ⟨200, []⟩, []⟩ "v.mp4".toList).generateCalls = [] :=
  missing_input_exits_before_network ⟨[], ⟨200, []⟩, []⟩ "v.mp4".toList
    (by decide)

/-- C6: when either credential is absent (`None`) or empty, the process exits
at startup with status 1 and the diagnostic message, and never reaches the
pipeline (hence no network call and no opening of the video file). -/
theorem missing_credentials_exit1 (ekey akey : Option (List Char))
    (env : Env) (vp : List Char)
    (h : (ekey = none ∨ ekey = some []) ∨ (akey = none ∨ akey = some [])) :
    main_program ekey akey env vp = ProgramOutcome.configExit 1 configErrMsg ∧
    ∀ o, main_program ekey akey env vp ≠ ProgramOutcome.ran o := by
  have hf : (isFalsyKey ekey || isFalsyKey akey) = true := by
    rcases h with (h | h) | (h | h) <;> subst h <;> simp [isFalsyKey]
  refine ⟨?_, ?_⟩
  · simp [main_program, hf]
  · intro o
    simp [main_program, hf]

/-- Witness for C6: with the first key absent, the program exits at startup
with status 1 and the diagnostic. -/
theorem missing_credentials_exit1_witness :
    main_program none (some ['k']) ⟨[], ⟨200, []⟩, []⟩ [] =
      ProgramOutcome.configExit 1 configErrMsg ∧
    ∀ o, main_program none (some ['k']) ⟨[], ⟨200, []⟩, []⟩ [] ≠
      ProgramOutcome.ran o :=
  missing_credentials_exit1 none (some ['k']) ⟨[], ⟨200, []⟩, []⟩ []
    (Or.inl (Or.inl rfl))

/-- C3: output-path derivation.  For any input path made of a directory
prefix `d`, a separator, a base-name stem `b` (slash-free, with at least one
non-dot character), a dot and an extension `e` (slash-free and dot-free),
`save_output_path` strips the extension and appends `"_description.txt"`,
preserving the directory — e.g. `"/a/b/clip.mp4" ↦ "/a/b/clip_description.txt"`,
and likewise for `.mov`, `.mkv`, etc. -/
theorem save_output_path_strips_extension (d b e : List Char)
    (hb : '/' ∉ b) (he : '/' ∉ e) (hd : '.' ∉ e)
    (hnb : ∃ c ∈ b, c ≠ '.') :
    save_output_path (d ++ '/' :: b ++ '.' :: e) =
      d ++ '/' :: b ++ "_description.txt".toList := by
  have hslE : '/' ∉ '.' :: e := by
    intro hm
    rcases List.mem_cons.mp hm with hm | hm
    · exact absurd hm (by decide)
    · exact he hm
  have hsep : rfindIdx '/' ((d ++ '/' :: b) ++ '.' :: e) = (d.length : Int) := by
    rw [rfindIdx_append, rfindIdx_not_mem '/' _ hslE, if_neg (by omega),
      rfindIdx_append, rfindIdx_cons_self '/' b hb, if_pos (le_refl 0)]
    simp
  have hdot : rfindIdx '.' ((d ++ '/' :: b) ++ '.' :: e) =
      ((d ++ '/' :: b).length : Int) := by
    rw [rfindIdx_append, rfindIdx_cons_self '.' e hd, if_pos (le_refl 0)]
    simp
  have hlen : (d ++ '/' :: b).length = d.length + 1 + b.length := by
    rw [List.length_append, List.length_cons]
    omega
  have htoN1 : (((d ++ '/' :: b).length : Int)).toNat = (d ++ '/' :: b).length := by
    omega
  have htoN2 : ((d.length : Int) + 1).toNat = d.length + 1 := by
    omega
  have htake : ((d ++ '/' :: b) ++ '.' :: e).take (d ++ '/' :: b).length =
      d ++ '/' :: b := List.take_left (d ++ '/' :: b) ('.' :: e)
  have hdrop : (d ++ '/' :: b).drop (d.length + 1) = b := by
    have hassoc : d ++ '/' :: b = (d ++ ['/']) ++ b := by
      simp
    rw [hassoc, List.drop_left']
    simp
  have hany : (b.any fun ch => ch != '.') = true := by
    obtain ⟨c, hc, hcne⟩ := hnb
    exact List.any_eq_true.mpr ⟨c, hc, by simpa using hcne⟩
  simp only [save_output_path, splitext, hsep, hdot]
  rw [if_pos (show (d.length : Int) < ((d ++ '/' :: b).length : Int) by
    rw [hlen]; push_cast; omega),
    htoN1, htoN2, htake, hdrop, if_pos hany]

/-- Witness for C3 at `"/a/b/clip.mp4"`: the derived path is
`"/a/b/clip_description.txt"`. -/
theorem save_output_path_strips_extension_witness :
    save_output_path
        ("/a/b".toList ++ '/' :: "clip".toList ++ '.' :: "mp4".toList) =
      "/a/b".toList ++ '/' :: "clip".toList ++ "_description.txt".toList :=
  save_output_path_strips_extension "/a/b".toList "clip".toList "mp4".toList
    (by decide) (by decide) (by decide) ⟨'c', by decide, by decide⟩

/-- C9: only the final extension component is stripped.  For a base name
with no dot at all the suffix is appended directly
(`"/a/b/clip" ↦ "/a/b/clip_description.txt"`, whatever dots the directory
prefix holds), and for a multi-dot name only the last component goes
(`"/a/b/clip.tar.gz" ↦ "/a/b/clip.tar_description.txt"`). -/
theorem save_output_path_edge_cases (d b : List Char)
    (hb : '/' ∉ b) (hd : '.' ∉ b) :
    save_output_path (d ++ '/' :: b) =
      (d ++ '/' :: b) ++ "_description.txt".toList ∧
    save_output_path ("/a/b/clip.tar.gz".toList) =
      "/a/b/clip.tar_description.txt".toList := by
  constructor
  · have hsep : rfindIdx '/' (d ++ '/' :: b) = (d.length : Int) := by
      rw [rfindIdx_append, rfindIdx_cons_self '/' b hb]
      simp
    have hnd : '.' ∉ '/' :: b := by
      intro hm
      rcases List.mem_cons.mp hm with hm | hm
      · exact absurd hm (by decide)
      · exact hd hm
    have hdot : rfindIdx '.' (d ++ '/' :: b) = rfindIdx '.' d := by
      rw [rfindIdx_append, rfindIdx_not_mem '.' _ hnd,
        if_neg (by omega)]
    have hlt : rfindIdx '.' d < (d.length : Int) := rfindIdx_lt_length '.' d
    simp only [save_output_path, splitext, hsep, hdot]
    rw [if_neg (by omega)]
  · decide

/-- Witness for C9 at `d = "/a/b"`, `b = "clip"`: the extensionless path gets
the suffix appended directly, and the multi-dot example holds. -/
theorem save_output_path_edge_cases_witness :
    save_output_path ("/a/b".toList ++ '/' :: "clip".toList) =
      ("/a/b".toList ++ '/' :: "clip".toList) ++ "_description.txt".toList ∧
    save_output_path ("/a/b/clip.tar.gz".toList) =
      "/a/b/clip.tar_description.txt".toList :=
  save_output_path_edge_cases "/a/b".toList "clip".toList
    (by decide) (by decide)

/-- C10: `trim_srt`'s default budget (the one the pipeline driver uses) is
exactly 80000 characters, so every text the driver forwards to the
description generator has length at most 80000. -/
theorem trim_default_budget :
    trim_srt_default_max = 80000 ∧
    ∀ (env : Env) (vp s : List Char),
      s ∈ (run env vp).generateCalls → s.length ≤ 80000 := by
  refine ⟨rfl, ?_⟩
  intro env vp s hs
  unfold run at hs
  by_cases hex : pathExists env.fs vp = true
  · rw [if_pos hex] at hs
    cases htr : transcribe_video_to_srt env.transcribeResp with
    | error e => rw [htr] at hs; simp at hs
    | ok srt =>
      rw [htr] at hs
      simp only [List.mem_singleton] at hs
      rw [hs]
      exact trim_srt_length_le srt trim_srt_default_max
  · rw [if_neg hex] at hs
    simp at hs

/-- Witness for C10: a concrete run with a short transcript forwards that
transcript, whose length is within the budget. -/
theorem trim_default_budget_witness : ("hello".toList).length ≤ 80000 :=
  trim_default_budget.2
    ⟨[("v.mp4".toList, [])], ⟨200, "hello".toList⟩, "DESC".toList⟩
    "v.mp4".toList "hello".toList (by decide)

end VideoPrompt
